import Mathlib

/-!
Verification development for the Viceroy key-value store core
(`src/lib/src/object_store.rs`, `src/lib/src/wiggle_abi/kv_store_impl.rs`,
`src/lib/src/component/kv_store.rs`, `src/lib/src/adapt.rs`).

The Rust code is shallowly embedded: `BTreeMap` becomes a sorted
association list with the same `get`/`insert`/`remove` behaviour, byte
vectors become `List Nat`, `u32` arithmetic is `Nat` taken `% 2^32`,
fallible code returns `Except`, and the one reachable panic in
`ObjectStores::list` is made explicit with a `PanicOr` wrapper.
-/

/-- Insert modes of `KvInsertMode` (wiggle ABI types used by
`ObjectStores::insert`). -/
inductive KvInsertMode
  | Overwrite
  | Add
  | Append
  | Prepend
deriving DecidableEq, Repr

/-- `ObjectValue` from object_store.rs: body bytes, metadata bytes with a
declared length, and a `u32` generation stamp. -/
structure ObjectValue where
  body : List Nat
  metadata : List Nat
  metadata_len : Nat
  generation : Nat
deriving DecidableEq, Repr

/-- `ObjectStoreError` from object_store.rs. -/
inductive ObjectStoreError
  | MissingObject
  | PoisonedLock
  | UnknownObjectStore (name : String)
deriving DecidableEq, Repr

/-- `KvStoreError` from object_store.rs. -/
inductive KvStoreError
  | Uninitialized
  | Ok
  | BadRequest
  | NotFound
  | PreconditionFailed
  | PayloadTooLarge
  | InternalError
  | TooManyRequests
deriving DecidableEq, Repr

/-- `KeyValidationError` from object_store.rs. -/
inductive KeyValidationError
  | EmptyKey
  | Over1024Bytes
  | StartsWithWellKnown
  | ContainsDot
  | ContainsDotDot
  | Contains (s : String)
deriving DecidableEq, Repr

-- Decidable equality for `Except`, used to evaluate results on concrete
-- inputs.
deriving instance DecidableEq for Except

/-- Lexicographic strict order on character lists.  On the character lists
of Rust `String`s this is exactly the derived `Ord`: Rust compares the
UTF-8 bytes lexicographically, and UTF-8 byte order coincides with scalar
value order. -/
def charListLt : List Char → List Char → Bool
  | [], [] => false
  | [], _ :: _ => true
  | _ :: _, [] => false
  | a :: as, b :: bs =>
    if a < b then true
    else if b < a then false
    else charListLt as bs

/-- `a < b` on Rust `String`s. -/
def strLt (a b : String) : Bool :=
  charListLt a.toList b.toList

/-- `str::starts_with` on a string pattern. -/
def strStartsWith (s p : String) : Bool :=
  p.toList.isPrefixOf s.toList

/-- `str::contains` on a `char` pattern. -/
def strContains (s : String) (c : Char) : Bool :=
  s.toList.contains c

/-- One store: the embedding of `BTreeMap<ObjectKey, ObjectValue>` as an
association list kept in ascending key order. -/
abbrev Store := List (String × ObjectValue)

/-- The store-of-stores: `BTreeMap<ObjectStoreKey, BTreeMap<..>>`. -/
abbrev Stores := List (String × Store)

/-- `BTreeMap::get`. -/
def btreeFind {α : Type} (k : String) : List (String × α) → Option α
  | [] => none
  | (k', v') :: rest => if k = k' then some v' else btreeFind k rest

/-- `BTreeMap::insert`: replace the value at `k` if present, otherwise add
the entry, keeping ascending key order. -/
def btreeInsert {α : Type} (k : String) (v : α) : List (String × α) → List (String × α)
  | [] => [(k, v)]
  | (k', v') :: rest =>
    if strLt k k' then (k, v) :: (k', v') :: rest
    else if k = k' then (k, v) :: rest
    else (k', v') :: btreeInsert k v rest

/-- `BTreeMap::remove` (value dropped). -/
def btreeRemove {α : Type} (k : String) : List (String × α) → List (String × α)
  | [] => []
  | (k', v') :: rest => if k = k' then rest else (k', v') :: btreeRemove k rest

/-- `ObjectStores::lookup`: resolve the store, then the key, failing with
`MissingObject` when either is absent (the lock-poisoning path is the only
other failure in the source and is not reachable in a sequential model). -/
def ObjectStores.lookup (stores : Stores) (obj_store_key obj_key : String) :
    Except ObjectStoreError ObjectValue :=
  match btreeFind obj_store_key stores with
  | none => .error .MissingObject
  | some m =>
    match btreeFind obj_key m with
    | none => .error .MissingObject
    | some v => .ok v

/-- The generation precondition of `ObjectStores::insert`: an expected
generation was supplied and the existing value's generation differs. -/
def genMismatch (generation : Option Nat) (existing : Except ObjectStoreError ObjectValue) :
    Bool :=
  match generation, existing with
  | some g, .ok v => v.generation != g
  | _, _ => false

/-- The `ObjectValue` constructed by `ObjectStores::insert`: metadata and
its length are set only when a metadata payload is supplied; the
generation is the nanosecond clock cast `as u32`, with the magic `1337`
stamp remapped to `1338` for the integration-test fixture. -/
def newObjectValue (body : List Nat) (metadata : Option (List Nat)) (nowNanos : Nat) :
    ObjectValue :=
  let g0 := nowNanos % 4294967296
  { body := body
    metadata := match metadata with | some m => m | none => []
    metadata_len := match metadata with | some m => m.length | none => 0
    generation := if g0 = 1337 then 1338 else g0 }

/-- `ObjectStores::insert`.  `nowNanos` stands for
`SystemTime::now().duration_since(UNIX_EPOCH).as_nanos()`; the source casts
it `as u32`, embedded as `% 2^32`.  The result pairs the source's
`Result<(), KvStoreError>` with the store state after the call (every early
`return Err` in the source happens before the single write). -/
def ObjectStores.insert (stores : Stores) (obj_store_key obj_key : String)
    (obj : List Nat) (mode : KvInsertMode) (generation : Option Nat)
    (metadata : Option (List Nat)) (nowNanos : Nat) :
    Except KvStoreError Unit × Stores :=
  let existing := ObjectStores.lookup stores obj_store_key obj_key
  if genMismatch generation existing then (.error .PreconditionFailed, stores)
  else
    let out_obj : Except KvStoreError (List Nat) :=
      match mode with
      | .Overwrite => .ok obj
      | .Add =>
        match existing with
        | .ok _ => .error .PreconditionFailed
        | .error _ => .ok obj
      | .Append =>
        match existing with
        | .error .MissingObject => .ok obj
        | .error _ => .error .InternalError
        | .ok v => .ok (v.body ++ obj)
      | .Prepend =>
        match existing with
        | .error .MissingObject => .ok obj
        | .error _ => .error .InternalError
        | .ok v => .ok (obj ++ v.body)
    match out_obj with
    | .error e => (.error e, stores)
    | .ok body =>
      let obj_val := newObjectValue body metadata nowNanos
      let newStores :=
        match btreeFind obj_store_key stores with
        | some store => btreeInsert obj_store_key (btreeInsert obj_key obj_val store) stores
        | none => btreeInsert obj_store_key [(obj_key, obj_val)] stores
      (.ok (), newStores)

/-- Value of one character of the standard base64 alphabet
(`BASE64_STANDARD` of the base64 crate). -/
def b64Val (c : Char) : Option Nat :=
  if 'A' ≤ c ∧ c ≤ 'Z' then some (c.toNat - 65)
  else if 'a' ≤ c ∧ c ≤ 'z' then some (c.toNat - 97 + 26)
  else if '0' ≤ c ∧ c ≤ '9' then some (c.toNat - 48 + 52)
  else if c = '+' then some 62
  else if c = '/' then some 63
  else none

/-- Character of the standard base64 alphabet at index `n < 64`. -/
def b64Char (n : Nat) : Char :=
  if n < 26 then Char.ofNat (65 + n)
  else if n < 52 then Char.ofNat (97 + n - 26)
  else if n < 62 then Char.ofNat (48 + n - 52)
  else if n = 62 then '+'
  else '/'

/-- Strict base64 decoding of whole 4-character chunks, with canonical
padding required and trailing bits checked, as `BASE64_STANDARD.decode`
does. -/
def b64DecodeChunks : List Char → Option (List Nat)
  | [] => some []
  | a :: b :: c :: d :: rest =>
    match b64Val a, b64Val b with
    | some va, some vb =>
      if c = '=' then
        if d = '=' ∧ rest = [] ∧ vb % 16 = 0 then some [va * 4 + vb / 16] else none
      else
        match b64Val c with
        | some vc =>
          if d = '=' then
            if rest = [] ∧ vc % 4 = 0 then
              some [va * 4 + vb / 16, (vb % 16) * 16 + vc / 4]
            else none
          else
            match b64Val d with
            | some vd =>
              (b64DecodeChunks rest).map
                (fun t =>
                  (va * 4 + vb / 16) :: ((vb % 16) * 16 + vc / 4) :: ((vc % 4) * 64 + vd) :: t)
            | none => none
        | none => none
    | _, _ => none
  | _ => none

/-- `BASE64_STANDARD.decode` on a string. -/
def base64Decode (s : String) : Option (List Nat) :=
  b64DecodeChunks s.toList

/-- `BASE64_STANDARD.encode` over a byte list, with padding. -/
def b64EncodeBytes : List Nat → List Char
  | [] => []
  | [a] => [b64Char (a / 4), b64Char (a % 4 * 16), '=', '=']
  | [a, b] => [b64Char (a / 4), b64Char (a % 4 * 16 + b / 16), b64Char (b % 16 * 4), '=']
  | a :: b :: c :: rest =>
    b64Char (a / 4) :: b64Char (a % 4 * 16 + b / 16) :: b64Char (b % 16 * 4 + c / 64)
      :: b64Char (c % 64) :: b64EncodeBytes rest

/-- UTF-8 encoding of one scalar value. -/
def utf8EncodeChar (c : Char) : List Nat :=
  let n := c.toNat
  if n < 128 then [n]
  else if n < 2048 then [192 + n / 64, 128 + n % 64]
  else if n < 65536 then [224 + n / 4096, 128 + n / 64 % 64, 128 + n % 64]
  else [240 + n / 262144, 128 + n / 4096 % 64, 128 + n / 64 % 64, 128 + n % 64]

/-- UTF-8 byte encoding of a string (`str::as_bytes`). -/
def utf8Encode (s : String) : List Nat :=
  (s.toList.map utf8EncodeChar).flatten

/-- `BASE64_STANDARD.encode` of a string's bytes, as used for cursors. -/
def base64Encode (s : String) : String :=
  ⟨b64EncodeBytes (utf8Encode s)⟩

/-- Strict UTF-8 decoding (`String::from_utf8`): rejects bad continuation
bytes, overlong forms, surrogates and values above `0x10FFFF`. -/
def utf8DecodeAux : List Nat → Option (List Char)
  | [] => some []
  | b :: rest =>
    if b < 128 then (utf8DecodeAux rest).map (Char.ofNat b :: ·)
    else if b < 194 then none
    else if b < 224 then
      match rest with
      | b2 :: rest2 =>
        if 128 ≤ b2 ∧ b2 < 192 then
          (utf8DecodeAux rest2).map (Char.ofNat ((b - 192) * 64 + (b2 - 128)) :: ·)
        else none
      | [] => none
    else if b < 240 then
      match rest with
      | b2 :: b3 :: rest3 =>
        if 128 ≤ b2 ∧ b2 < 192 ∧ 128 ≤ b3 ∧ b3 < 192 then
          let n := (b - 224) * 4096 + (b2 - 128) * 64 + (b3 - 128)
          if n < 2048 ∨ (55296 ≤ n ∧ n < 57344) then none
          else (utf8DecodeAux rest3).map (Char.ofNat n :: ·)
        else none
      | _ => none
    else if b < 245 then
      match rest with
      | b2 :: b3 :: b4 :: rest4 =>
        if 128 ≤ b2 ∧ b2 < 192 ∧ 128 ≤ b3 ∧ b3 < 192 ∧ 128 ≤ b4 ∧ b4 < 192 then
          let n := (b - 240) * 262144 + (b2 - 128) * 4096 + (b3 - 128) * 64 + (b4 - 128)
          if n < 65536 ∨ 1114111 < n then none
          else (utf8DecodeAux rest4).map (Char.ofNat n :: ·)
        else none
      | _ => none
    else none

/-- `String::from_utf8` on a byte list. -/
def utf8Decode (l : List Nat) : Option String :=
  (utf8DecodeAux l).map (fun cs => ⟨cs⟩)

/-- Outcome of code that can panic. -/
inductive PanicOr (α : Type)
  | panic
  | value (a : α)
deriving DecidableEq, Repr

/-- The `meta` object serialized by `ObjectStores::list` (field names
`limit`, `prefix`, `next_cursor`; the middle one is a reserved word in
Lean and is called `pfx` here). -/
structure ListMeta where
  limit : Nat
  pfx : Option String
  next_cursor : Option String
deriving DecidableEq, Repr

/-- The JSON document serialized by `ObjectStores::list`: `data` plus
`meta`. -/
structure JsonOutput where
  data : List String
  meta : ListMeta
deriving DecidableEq, Repr

/-- Cursor handling at the top of `ObjectStores::list`: base64-decode,
then `String::from_utf8`; either failure is `BadRequest`. -/
def decodeCursor : Option String → Except KvStoreError (Option String)
  | none => .ok none
  | some c =>
    match base64Decode c with
    | none => .error .BadRequest
    | some bytes =>
      match utf8Decode bytes with
      | none => .error .BadRequest
      | some decoded => .ok (some decoded)

/-- The cursor filter of `ObjectStores::list`: keep keys strictly greater
than the decoded cursor, keep everything when no cursor was given. -/
def cursorKeep (cur : Option String) (k : String) : Bool :=
  match cur with
  | some c => strLt c k
  | none => true

/-- The prefix filter of `ObjectStores::list`: keep keys starting with
the prefix, keep everything when no prefix was given. -/
def pfxKeep (pfx : Option String) (k : String) : Bool :=
  match pfx with
  | some p => strStartsWith k p
  | none => true

/-- The filter-and-collect pipeline of `ObjectStores::list`: keep entries
whose key is strictly greater than the decoded cursor (when present) and
starts with the prefix (when present), then project to the key strings. -/
def listKeys (s : Store) (cur : Option String) (pfx : Option String) : List String :=
  ((s.filter fun kv => cursorKeep cur kv.1).filter fun kv => pfxKeep pfx kv.1).map
    (fun kv => kv.1)

/-- `ObjectStores::list`.  A missing store is `InternalError`; a cursor
that fails to decode is `BadRequest`.  After truncation the source indexes
`list[new_len - 1]` to build `next_cursor`; with `new_len = 0` that index
is out of bounds and the program panics, modelled by `PanicOr.panic`.  The
JSON serialization of the output is represented by the structured
`JsonOutput` value. -/
def ObjectStores.list (stores : Stores) (obj_store_key : String)
    (cursor : Option String) (pfx : Option String) (limit : Nat) :
    PanicOr (Except KvStoreError JsonOutput) :=
  match btreeFind obj_store_key stores with
  | none => .value (.error .InternalError)
  | some s =>
    match decodeCursor cursor with
    | .error e => .value (.error e)
    | .ok cur =>
      let list := listKeys s cur pfx
      let old_len := list.length
      let truncated := list.take limit
      let new_len := truncated.length
      if old_len ≠ new_len then
        match truncated.get? (new_len - 1) with
        | none => .panic
        | some last =>
          .value (.ok ⟨truncated, ⟨limit, pfx, some (base64Encode last)⟩⟩)
      else
        .value (.ok ⟨truncated, ⟨limit, pfx, none⟩⟩)

/-- `ObjectStores::delete`: `entry(..).and_modify(..)` touches an existing
store only; on a vacant outer entry nothing happens and `res` stays `Ok`. -/
def ObjectStores.delete (stores : Stores) (obj_store_key obj_key : String) :
    Except KvStoreError Unit × Stores :=
  match btreeFind obj_store_key stores with
  | none => (.ok (), stores)
  | some store =>
    match btreeFind obj_key store with
    | some _ => (.ok (), btreeInsert obj_store_key (btreeRemove obj_key store) stores)
    | none => (.error .NotFound, stores)

/-- `is_valid_key` from object_store.rs, checked in source order: length
bounds on the UTF-8 byte length, the `.well-known/acme-challenge` prefix,
the two dot names, then each forbidden character. -/
def is_valid_key (key : String) : Except KeyValidationError Unit :=
  let len := (utf8Encode key).length
  if len < 1 then .error .EmptyKey
  else if len > 1024 then .error .Over1024Bytes
  else if strStartsWith key ".well-known/acme-challenge" then .error .StartsWithWellKnown
  else if key = ".." then .error .ContainsDotDot
  else if key = "." then .error .ContainsDot
  else if strContains key '\r' then .error (.Contains "\r")
  else if strContains key '\n' then .error (.Contains "\n")
  else if strContains key '[' then .error (.Contains "[")
  else if strContains key ']' then .error (.Contains "]")
  else if strContains key '*' then .error (.Contains "*")
  else if strContains key '?' then .error (.Contains "?")
  else if strContains key '#' then .error (.Contains "#")
  else .ok ()

/-- `ObjectKey::new`: validate, then wrap. -/
def ObjectKey.new (key : String) : Except KeyValidationError String :=
  match is_valid_key key with
  | .error e => .error e
  | .ok _ => .ok key

/-- The façade error type (`crate::error::Error`), restricted to the
variants the kv hostcalls produce via `From` conversions. -/
inductive HostcallError
  | ObjectStoreErr (e : ObjectStoreError)
  | KvStoreErr (e : KvStoreError)
deriving DecidableEq, Repr

/-- The match in `lookup_wait` (wiggle_abi/kv_store_impl.rs) over the
awaited backing result: a value yields a fresh body handle, a
`MissingObject` error is downgraded to success with no handle written,
every other error propagates. -/
def lookup_wait (pending_obj : Except ObjectStoreError ObjectValue)
    (newHandle : Nat) : Except HostcallError (Option Nat) :=
  match pending_obj with
  | .ok _ => .ok (some newHandle)
  | .error .MissingObject => .ok none
  | .error e => .error (.ObjectStoreErr e)

/-- `delete_wait` (wiggle_abi/kv_store_impl.rs) over the awaited backing
result: the inner `Result` is propagated unchanged by `?`. -/
def delete_wait (res : Except KvStoreError Unit) : Except HostcallError Unit :=
  match res with
  | .ok _ => .ok ()
  | .error e => .error (.KvStoreErr e)

/-- `LookupResult` from component/kv_store.rs: a body handle, the
optional metadata bytes, and the generation. -/
structure LookupResult where
  body : Nat
  metadata : Option (List Nat)
  generation : Nat
deriving DecidableEq, Repr

/-- `types::Error` from the component interface, restricted to the
variant `metadata` produces. -/
inductive ComponentError
  | BufferLen (len : Nat)
deriving DecidableEq, Repr

/-- `HostLookupResult::body`: a pure read of the stored body handle; the
resource is returned unchanged. -/
def LookupResult.bodyRead (r : LookupResult) : Nat × LookupResult :=
  (r.body, r)

/-- `HostLookupResult::metadata`: absent metadata reads as `None`;
metadata longer than `max_len` fails with `BufferLen` and leaves the
resource untouched; otherwise `Option::take` moves the bytes out. -/
def LookupResult.metadataRead (r : LookupResult) (max_len : Nat) :
    Except ComponentError (Option (List Nat)) × LookupResult :=
  match r.metadata with
  | none => (.ok none, r)
  | some md =>
    if md.length > max_len then (.error (.BufferLen md.length), r)
    else (.ok (some md), { r with metadata := none })

/-- The two wasm binary encodings distinguished by the
`wasmparser::Payload::Version` payload. -/
inductive WasmEncoding
  | module
  | component
deriving DecidableEq, Repr

/-- One import entry of a core module's import section. -/
structure WasmImport where
  module : String
  name : String
  ty : Nat
deriving DecidableEq, Repr

/-- The payloads `mangle_imports` (adapt.rs) distinguishes when walking a
parsed module: the version header, an import section, any payload that
`as_section()` renders as a raw section, and payloads that are not
sections (which emit nothing). -/
inductive WasmPayload
  | version (enc : WasmEncoding)
  | importSection (imports : List WasmImport)
  | rawSection (id : Nat) (data : List Nat)
  | nonSection
deriving DecidableEq, Repr

/-- A section of the re-encoded `wasm_encoder::Module`. -/
inductive OutSection
  | imports (l : List WasmImport)
  | raw (id : Nat) (data : List Nat)
deriving DecidableEq, Repr

/-- The per-import rewrite in `mangle_imports`: preview1 imports are kept
as-is, anything else is rebound under `wasi_snapshot_preview1` with the
composite name `module#name`. -/
def mangleImport (i : WasmImport) : WasmImport :=
  if i.module = "wasi_snapshot_preview1" then i
  else { module := "wasi_snapshot_preview1", name := i.module ++ "#" ++ i.name, ty := i.ty }

/-- `mangle_imports` (adapt.rs) over the parsed payload stream: bail out
on a component version header, rewrite import sections, copy every other
section through unchanged. -/
def mangle_imports : List WasmPayload → Except String (List OutSection)
  | [] => .ok []
  | .version .component :: _ =>
    .error "Mangling only supports core-wasm modules, not components"
  | .version .module :: rest => mangle_imports rest
  | .importSection l :: rest =>
    (mangle_imports rest).map (fun t => .imports (l.map mangleImport) :: t)
  | .rawSection id data :: rest =>
    (mangle_imports rest).map (fun t => .raw id data :: t)
  | .nonSection :: rest => mangle_imports rest

/-- The sections one payload contributes to the output module when no
component header is present. -/
def payloadSections : WasmPayload → List OutSection
  | .version _ => []
  | .importSection l => [.imports (l.map mangleImport)]
  | .rawSection id data => [.raw id data]
  | .nonSection => []

/-! ## Helper lemmas about the association-map embedding of `BTreeMap` -/

theorem btreeFind_insert_self {α : Type} (k : String) (v : α) (l : List (String × α)) :
    btreeFind k (btreeInsert k v l) = some v := by
  induction l with
  | nil => simp [btreeInsert, btreeFind]
  | cons hd tl ih =>
    obtain ⟨k', v'⟩ := hd
    by_cases hlt : strLt k k'
    · simp [btreeInsert, hlt, btreeFind]
    · by_cases heq : k = k'
      · subst heq
        simp [btreeInsert, hlt, btreeFind]
      · simp [btreeInsert, hlt, heq, btreeFind, ih]

theorem btreeFind_insert_ne {α : Type} (k k' : String) (v : α) (l : List (String × α))
    (h : k' ≠ k) : btreeFind k' (btreeInsert k v l) = btreeFind k' l := by
  induction l with
  | nil => simp [btreeInsert, btreeFind, h]
  | cons hd tl ih =>
    obtain ⟨k0, v0⟩ := hd
    by_cases hlt : strLt k k0
    · simp [btreeInsert, hlt, btreeFind, h]
    · by_cases heq : k = k0
      · subst heq
        simp [btreeInsert, hlt, btreeFind, h]
      · simp [btreeInsert, hlt, heq, btreeFind, ih]

theorem btreeFind_eq_none {α : Type} (k : String) (l : List (String × α))
    (h : k ∉ l.map Prod.fst) : btreeFind k l = none := by
  induction l with
  | nil => simp [btreeFind]
  | cons hd tl ih =>
    obtain ⟨k0, v0⟩ := hd
    simp only [List.map_cons, List.mem_cons] at h
    push_neg at h
    simp [btreeFind, h.1, ih h.2]

theorem btreeFind_remove_self {α : Type} (k : String) (l : List (String × α))
    (h : (l.map Prod.fst).Nodup) : btreeFind k (btreeRemove k l) = none := by
  induction l with
  | nil => simp [btreeRemove, btreeFind]
  | cons hd tl ih =>
    obtain ⟨k0, v0⟩ := hd
    simp only [List.map_cons, List.nodup_cons] at h
    by_cases heq : k = k0
    · subst heq
      simpa [btreeRemove] using btreeFind_eq_none k tl h.1
    · simp [btreeRemove, heq, btreeFind, ih h.2]

theorem btreeFind_remove_ne {α : Type} (k k' : String) (l : List (String × α))
    (h : k' ≠ k) : btreeFind k' (btreeRemove k l) = btreeFind k' l := by
  induction l with
  | nil => simp [btreeRemove, btreeFind]
  | cons hd tl ih =>
    obtain ⟨k0, v0⟩ := hd
    by_cases heq : k = k0
    · subst heq
      simp [btreeRemove, btreeFind, h]
    · by_cases heq' : k' = k0
      · simp [btreeRemove, heq, btreeFind, heq']
      · simp [btreeRemove, heq, btreeFind, heq', ih]

theorem genMismatch_none (e : Except ObjectStoreError ObjectValue) :
    genMismatch none e = false := by
  cases e <;> rfl

/-- Looking up the key just written by `ObjectStores::insert`'s final
store update. -/
theorem lookup_after_write (stores : Stores) (sk k : String) (val : ObjectValue) (m : Store) :
    ObjectStores.lookup (btreeInsert sk (btreeInsert k val m) stores) sk k = .ok val := by
  simp [ObjectStores.lookup, btreeFind_insert_self]

/-- A successful `lookup` pins down the two map reads. -/
theorem lookup_ok_elim (stores : Stores) (sk k : String) (v : ObjectValue)
    (hv : ObjectStores.lookup stores sk k = .ok v) :
    ∃ m, btreeFind sk stores = some m ∧ btreeFind k m = some v := by
  unfold ObjectStores.lookup at hv
  split at hv
  · exact absurd hv (by simp)
  next m hm =>
    split at hv
    · exact absurd hv (by simp)
    next v0 hk =>
      obtain rfl : v0 = v := by simpa using hv
      exact ⟨m, hm, hk⟩

/-- A `MissingObject` from `lookup` means the store or the key is absent. -/
theorem lookup_missing_elim (stores : Stores) (sk k : String)
    (hv : ObjectStores.lookup stores sk k = .error .MissingObject) :
    btreeFind sk stores = none ∨ ∃ m, btreeFind sk stores = some m ∧ btreeFind k m = none := by
  unfold ObjectStores.lookup at hv
  split at hv
  next hm => exact .inl hm
  next m hm =>
    split at hv
    next hk => exact .inr ⟨m, hm, hk⟩
    next v0 hk => exact absurd hv (by simp)

/-- Looking up the key written into a freshly created store. -/
theorem lookup_after_write_new (stores : Stores) (sk k : String) (val : ObjectValue) :
    ObjectStores.lookup (btreeInsert sk [(k, val)] stores) sk k = .ok val := by
  simp [ObjectStores.lookup, btreeFind_insert_self, btreeFind]

/-- Claim C1 (as stated) is false on the code: in the source, `Append`
writes the prior body followed by the new bytes, not the other way
around.  Concretely, after `Overwrite` of `"1"` (`[49]`) and `Append` of
`"2"` (`[50]`) the stored body is `[49, 50]`, which differs from the
claimed `B ++ A = [50, 49]`. -/
theorem claim_C1_counterexample :
    ObjectStores.lookup
      (ObjectStores.insert
        ((ObjectStores.insert [] "s" "a" [49] .Overwrite none none 0).2)
        "s" "a" [50] .Append none none 0).2 "s" "a"
      = .ok ⟨[49, 50], [], 0, 0⟩
    ∧ ([49, 50] : List Nat) ≠ [50] ++ [49] := by
  decide

/-- Claim C1, amended: for every store and key holding an existing value
with body `A`, `insert` in `Append` mode with payload `B` stores a new
body equal to `A` followed by `B`, and `insert` in `Prepend` mode stores
`B` followed by `A`; when no value exists for the key, both modes store
`B` as-is. -/
theorem claim_C1 (stores : Stores) (sk k : String) (B : List Nat)
    (meta : Option (List Nat)) (t : Nat) :
    (∀ v, ObjectStores.lookup stores sk k = .ok v →
      (ObjectStores.insert stores sk k B .Append none meta t).1 = .ok () ∧
      ObjectStores.lookup (ObjectStores.insert stores sk k B .Append none meta t).2 sk k
        = .ok (newObjectValue (v.body ++ B) meta t)) ∧
    (∀ v, ObjectStores.lookup stores sk k = .ok v →
      (ObjectStores.insert stores sk k B .Prepend none meta t).1 = .ok () ∧
      ObjectStores.lookup (ObjectStores.insert stores sk k B .Prepend none meta t).2 sk k
        = .ok (newObjectValue (B ++ v.body) meta t)) ∧
    (ObjectStores.lookup stores sk k = .error .MissingObject →
      ∀ mode, mode = KvInsertMode.Append ∨ mode = KvInsertMode.Prepend →
        (ObjectStores.insert stores sk k B mode none meta t).1 = .ok () ∧
        ObjectStores.lookup (ObjectStores.insert stores sk k B mode none meta t).2 sk k
          = .ok (newObjectValue B meta t)) := by
  refine ⟨?_, ?_, ?_⟩
  · intro v hv
    obtain ⟨m, hsk, hk⟩ := lookup_ok_elim stores sk k v hv
    constructor
    · simp [ObjectStores.insert, hv, genMismatch_none]
    · simp only [ObjectStores.insert, hv, genMismatch_none, hsk, Bool.false_eq_true, if_false]
      exact lookup_after_write _ _ _ _ _
  · intro v hv
    obtain ⟨m, hsk, hk⟩ := lookup_ok_elim stores sk k v hv
    constructor
    · simp [ObjectStores.insert, hv, genMismatch_none]
    · simp only [ObjectStores.insert, hv, genMismatch_none, hsk, Bool.false_eq_true, if_false]
      exact lookup_after_write _ _ _ _ _
  · intro hv mode hmode
    rcases lookup_missing_elim stores sk k hv with hsk | ⟨m, hsk, hk⟩
    · rcases hmode with rfl | rfl <;>
        refine ⟨by simp [ObjectStores.insert, hv, genMismatch_none], ?_⟩ <;>
        · simp only [ObjectStores.insert, hv, genMismatch_none, hsk, Bool.false_eq_true,
            if_false]
          exact lookup_after_write_new _ _ _ _
    · rcases hmode with rfl | rfl <;>
        refine ⟨by simp [ObjectStores.insert, hv, genMismatch_none], ?_⟩ <;>
        · simp only [ObjectStores.insert, hv, genMismatch_none, hsk, Bool.false_eq_true,
            if_false]
          exact lookup_after_write _ _ _ _ _

/-- Witness for claim C1: the amended ordering evaluated on a one-entry
store with body `[49]` and payload `[50]`. -/
theorem claim_C1_witness :
    (ObjectStores.insert [("s", [("a", ⟨[49], [], 0, 7⟩)])] "s" "a" [50]
        .Append none none 3).1 = .ok () ∧
    ObjectStores.lookup (ObjectStores.insert [("s", [("a", ⟨[49], [], 0, 7⟩)])] "s" "a" [50]
        .Append none none 3).2 "s" "a"
      = .ok (newObjectValue (ObjectValue.body ⟨[49], [], 0, 7⟩ ++ [50]) none 3) :=
  (claim_C1 [("s", [("a", ⟨[49], [], 0, 7⟩)])] "s" "a" [50] none 3).1
    ⟨[49], [], 0, 7⟩ (by decide)

/-- Claim C2: `Append` of `B` onto existing body `A` yields `A ++ B`,
`Prepend` yields `B ++ A`, both modes against a missing key produce
exactly the same call result as `Overwrite`, and the concrete
`"1"`/`"2"`/`"0"` scenario produces bodies `"12"` then `"012"`. -/
theorem claim_C2 :
    (∀ (stores : Stores) (sk k : String) (v : ObjectValue) (B : List Nat)
        (meta : Option (List Nat)) (t : Nat),
      ObjectStores.lookup stores sk k = .ok v →
        (ObjectStores.insert stores sk k B .Append none meta t).1 = .ok () ∧
        ∃ v', ObjectStores.lookup (ObjectStores.insert stores sk k B .Append none meta t).2 sk k
            = .ok v' ∧ v'.body = v.body ++ B) ∧
    (∀ (stores : Stores) (sk k : String) (v : ObjectValue) (B : List Nat)
        (meta : Option (List Nat)) (t : Nat),
      ObjectStores.lookup stores sk k = .ok v →
        (ObjectStores.insert stores sk k B .Prepend none meta t).1 = .ok () ∧
        ∃ v', ObjectStores.lookup (ObjectStores.insert stores sk k B .Prepend none meta t).2 sk k
            = .ok v' ∧ v'.body = B ++ v.body) ∧
    (∀ (stores : Stores) (sk k : String) (B : List Nat)
        (meta : Option (List Nat)) (t : Nat),
      ObjectStores.lookup stores sk k = .error .MissingObject →
        ObjectStores.insert stores sk k B .Append none meta t
          = ObjectStores.insert stores sk k B .Overwrite none meta t ∧
        ObjectStores.insert stores sk k B .Prepend none meta t
          = ObjectStores.insert stores sk k B .Overwrite none meta t) ∧
    (ObjectStores.lookup
        (ObjectStores.insert
          ((ObjectStores.insert [] "s" "a" [49] .Overwrite none none 0).2)
          "s" "a" [50] .Append none none 0).2 "s" "a"
        = .ok ⟨[49, 50], [], 0, 0⟩ ∧
      ObjectStores.lookup
        (ObjectStores.insert
          (ObjectStores.insert
            ((ObjectStores.insert [] "s" "a" [49] .Overwrite none none 0).2)
            "s" "a" [50] .Append none none 0).2
          "s" "a" [48] .Prepend none none 0).2 "s" "a"
        = .ok ⟨[48, 49, 50], [], 0, 0⟩) := by
  refine ⟨?_, ?_, ?_, by decide⟩
  · intro stores sk k v B meta t hv
    exact ⟨((claim_C1 stores sk k B meta t).1 v hv).1,
      newObjectValue (v.body ++ B) meta t, ((claim_C1 stores sk k B meta t).1 v hv).2, rfl⟩
  · intro stores sk k v B meta t hv
    exact ⟨((claim_C1 stores sk k B meta t).2.1 v hv).1,
      newObjectValue (B ++ v.body) meta t, ((claim_C1 stores sk k B meta t).2.1 v hv).2, rfl⟩
  · intro stores sk k B meta t hv
    constructor <;> simp [ObjectStores.insert, hv, genMismatch_none]

/-- Claim C3: when `expected_generation` is supplied and an existing value
is present whose generation differs, `insert` fails `PreconditionFailed`
regardless of the mode, and the stores are returned unmodified (the check
precedes all mode-specific logic). -/
theorem claim_C3 (stores : Stores) (sk k : String) (obj : List Nat)
    (mode : KvInsertMode) (g : Nat) (meta : Option (List Nat)) (t : Nat)
    (v : ObjectValue) (hv : ObjectStores.lookup stores sk k = .ok v)
    (hg : v.generation ≠ g) :
    ObjectStores.insert stores sk k obj mode (some g) meta t
      = (.error .PreconditionFailed, stores) := by
  have hmis : genMismatch (some g) (ObjectStores.lookup stores sk k) = true := by
    rw [hv]
    simpa [genMismatch] using hg
  simp [ObjectStores.insert, hmis]

/-- Witness for claim C3: a mismatching expected generation (8 against a
stored 7) on a one-entry store, in `Add` mode. -/
theorem claim_C3_witness :
    ObjectStores.insert [("s", [("a", ⟨[49], [], 0, 7⟩)])] "s" "a" [50]
        .Add (some 8) none 3
      = (.error .PreconditionFailed, [("s", [("a", ⟨[49], [], 0, 7⟩)])]) :=
  claim_C3 [("s", [("a", ⟨[49], [], 0, 7⟩)])] "s" "a" [50] .Add 8 none 3
    ⟨[49], [], 0, 7⟩ (by decide) (by decide)

/-- Claim C6 (as stated) is false on the code: deleting a key when no
store of that name exists returns `Ok`, not `NotFound` — the
`entry(..).and_modify(..)` chain does nothing on a vacant outer entry and
the preset `Ok` result is returned. -/
theorem claim_C6_counterexample :
    ObjectStores.delete [] "s" "k" = (Except.ok (), ([] : Stores))
    ∧ (Except.ok () : Except KvStoreError Unit) ≠ .error .NotFound := by
  decide

/-- Claim C6, amended: delete of a present key removes exactly that key
(the key subsequently fails `lookup` with `MissingObject`, every other
key in every store is unaffected); delete of an absent key in an existing
store fails `NotFound` and leaves the stores unchanged; delete against a
nonexistent store name succeeds and leaves the stores unchanged. -/
theorem claim_C6 (stores : Stores) (sk k : String) :
    (∀ m v, btreeFind sk stores = some m → btreeFind k m = some v →
      (m.map Prod.fst).Nodup →
      (ObjectStores.delete stores sk k).1 = .ok () ∧
      ObjectStores.lookup (ObjectStores.delete stores sk k).2 sk k
        = .error .MissingObject ∧
      (∀ k', k' ≠ k →
        ObjectStores.lookup (ObjectStores.delete stores sk k).2 sk k'
          = ObjectStores.lookup stores sk k') ∧
      (∀ sk' k', sk' ≠ sk →
        ObjectStores.lookup (ObjectStores.delete stores sk k).2 sk' k'
          = ObjectStores.lookup stores sk' k')) ∧
    (∀ m, btreeFind sk stores = some m → btreeFind k m = none →
      ObjectStores.delete stores sk k = (.error .NotFound, stores)) ∧
    (btreeFind sk stores = none →
      ObjectStores.delete stores sk k = (.ok (), stores)) := by
  refine ⟨?_, ?_, ?_⟩
  · intro m v hm hk hnd
    have hdel : ObjectStores.delete stores sk k
        = (.ok (), btreeInsert sk (btreeRemove k m) stores) := by
      simp [ObjectStores.delete, hm, hk]
    refine ⟨by rw [hdel], ?_, ?_, ?_⟩
    · rw [hdel]
      simp [ObjectStores.lookup, btreeFind_insert_self, btreeFind_remove_self k m hnd]
    · intro k' hk'
      rw [hdel]
      simp [ObjectStores.lookup, btreeFind_insert_self, hm,
        btreeFind_remove_ne k k' m hk']
    · intro sk' k' hsk'
      rw [hdel]
      simp [ObjectStores.lookup, btreeFind_insert_ne sk sk' _ stores hsk']
  · intro m hm hk
    simp [ObjectStores.delete, hm, hk]
  · intro hm
    simp [ObjectStores.delete, hm]

/-- Witness for claim C6: deleting the present key `"a"` of a two-key
store, checking the removal and that `"b"` survives. -/
theorem claim_C6_witness :
    (ObjectStores.delete [("s", [("a", ⟨[1], [], 0, 0⟩), ("b", ⟨[2], [], 0, 0⟩)])] "s" "a").1
      = .ok () ∧
    ObjectStores.lookup
      (ObjectStores.delete [("s", [("a", ⟨[1], [], 0, 0⟩), ("b", ⟨[2], [], 0, 0⟩)])] "s" "a").2
      "s" "a" = .error .MissingObject ∧
    ObjectStores.lookup
      (ObjectStores.delete [("s", [("a", ⟨[1], [], 0, 0⟩), ("b", ⟨[2], [], 0, 0⟩)])] "s" "a").2
      "s" "b"
      = ObjectStores.lookup [("s", [("a", ⟨[1], [], 0, 0⟩), ("b", ⟨[2], [], 0, 0⟩)])] "s" "b" := by
  have h := (claim_C6 [("s", [("a", ⟨[1], [], 0, 0⟩), ("b", ⟨[2], [], 0, 0⟩)])] "s" "a").1
    [("a", ⟨[1], [], 0, 0⟩), ("b", ⟨[2], [], 0, 0⟩)] ⟨[1], [], 0, 0⟩
    (by decide) (by decide) (by decide)
  exact ⟨h.1, h.2.1, h.2.2.1 "b" (by decide)⟩

/-- Claim C4: a key of 1–1024 UTF-8 bytes that is not `.` or `..`, does
not begin with `.well-known/acme-challenge` and contains none of CR, LF,
`[`, `]`, `*`, `?`, `#` validates; each forbidden condition (checked in
source order) fails with its own distinct `KeyValidationError` variant. -/
theorem claim_C4 (key : String) :
    (1 ≤ (utf8Encode key).length → (utf8Encode key).length ≤ 1024 →
      strStartsWith key ".well-known/acme-challenge" = false →
      key ≠ ".." → key ≠ "." →
      strContains key '\r' = false → strContains key '\n' = false →
      strContains key '[' = false → strContains key ']' = false →
      strContains key '*' = false → strContains key '?' = false →
      strContains key '#' = false →
      is_valid_key key = .ok ()) ∧
    ((utf8Encode key).length = 0 → is_valid_key key = .error .EmptyKey) ∧
    ((utf8Encode key).length > 1024 → is_valid_key key = .error .Over1024Bytes) ∧
    (1 ≤ (utf8Encode key).length → (utf8Encode key).length ≤ 1024 →
      strStartsWith key ".well-known/acme-challenge" = true →
      is_valid_key key = .error .StartsWithWellKnown) ∧
    (key = ".." → is_valid_key key = .error .ContainsDotDot) ∧
    (key = "." → is_valid_key key = .error .ContainsDot) ∧
    (1 ≤ (utf8Encode key).length → (utf8Encode key).length ≤ 1024 →
      strStartsWith key ".well-known/acme-challenge" = false →
      strContains key '\r' = true →
      is_valid_key key = .error (.Contains "\r")) ∧
    (1 ≤ (utf8Encode key).length → (utf8Encode key).length ≤ 1024 →
      strStartsWith key ".well-known/acme-challenge" = false →
      strContains key '\r' = false → strContains key '\n' = true →
      is_valid_key key = .error (.Contains "\n")) ∧
    (1 ≤ (utf8Encode key).length → (utf8Encode key).length ≤ 1024 →
      strStartsWith key ".well-known/acme-challenge" = false →
      strContains key '\r' = false → strContains key '\n' = false →
      strContains key '[' = true →
      is_valid_key key = .error (.Contains "[")) ∧
    (1 ≤ (utf8Encode key).length → (utf8Encode key).length ≤ 1024 →
      strStartsWith key ".well-known/acme-challenge" = false →
      strContains key '\r' = false → strContains key '\n' = false →
      strContains key '[' = false → strContains key ']' = true →
      is_valid_key key = .error (.Contains "]")) ∧
    (1 ≤ (utf8Encode key).length → (utf8Encode key).length ≤ 1024 →
      strStartsWith key ".well-known/acme-challenge" = false →
      strContains key '\r' = false → strContains key '\n' = false →
      strContains key '[' = false → strContains key ']' = false →
      strContains key '*' = true →
      is_valid_key key = .error (.Contains "*")) ∧
    (1 ≤ (utf8Encode key).length → (utf8Encode key).length ≤ 1024 →
      strStartsWith key ".well-known/acme-challenge" = false →
      strContains key '\r' = false → strContains key '\n' = false →
      strContains key '[' = false → strContains key ']' = false →
      strContains key '*' = false → strContains key '?' = true →
      is_valid_key key = .error (.Contains "?")) ∧
    (1 ≤ (utf8Encode key).length → (utf8Encode key).length ≤ 1024 →
      strStartsWith key ".well-known/acme-challenge" = false →
      strContains key '\r' = false → strContains key '\n' = false →
      strContains key '[' = false → strContains key ']' = false →
      strContains key '*' = false → strContains key '?' = false →
      strContains key '#' = true →
      is_valid_key key = .error (.Contains "#")) := by
  refine ⟨?_, ?_, ?_, ?_, ?_, ?_, ?_, ?_, ?_, ?_, ?_, ?_, ?_⟩
  · intro h1 h2 hsw hdd hd hcr hlf hob hcb hst hqm hhs
    have l1 : ¬((utf8Encode key).length < 1) := by omega
    have l2 : ¬((utf8Encode key).length > 1024) := by omega
    simp [is_valid_key, l1, l2, hsw, hdd, hd, hcr, hlf, hob, hcb, hst, hqm, hhs]
  · intro h
    simp [is_valid_key, h]
  · intro h
    have l1 : ¬((utf8Encode key).length < 1) := by omega
    simp [is_valid_key, l1, h]
  · intro h1 h2 hsw
    have l1 : ¬((utf8Encode key).length < 1) := by omega
    have l2 : ¬((utf8Encode key).length > 1024) := by omega
    simp [is_valid_key, l1, l2, hsw]
  · rintro rfl
    decide
  · rintro rfl
    decide
  · intro h1 h2 hsw hcr
    have l1 : ¬((utf8Encode key).length < 1) := by omega
    have l2 : ¬((utf8Encode key).length > 1024) := by omega
    have d1 : key ≠ ".." := by rintro rfl; revert hcr; decide
    have d2 : key ≠ "." := by rintro rfl; revert hcr; decide
    simp [is_valid_key, l1, l2, hsw, d1, d2, hcr]
  · intro h1 h2 hsw hcr hlf
    have l1 : ¬((utf8Encode key).length < 1) := by omega
    have l2 : ¬((utf8Encode key).length > 1024) := by omega
    have d1 : key ≠ ".." := by rintro rfl; revert hlf; decide
    have d2 : key ≠ "." := by rintro rfl; revert hlf; decide
    simp [is_valid_key, l1, l2, hsw, d1, d2, hcr, hlf]
  · intro h1 h2 hsw hcr hlf hob
    have l1 : ¬((utf8Encode key).length < 1) := by omega
    have l2 : ¬((utf8Encode key).length > 1024) := by omega
    have d1 : key ≠ ".." := by rintro rfl; revert hob; decide
    have d2 : key ≠ "." := by rintro rfl; revert hob; decide
    simp [is_valid_key, l1, l2, hsw, d1, d2, hcr, hlf, hob]
  · intro h1 h2 hsw hcr hlf hob hcb
    have l1 : ¬((utf8Encode key).length < 1) := by omega
    have l2 : ¬((utf8Encode key).length > 1024) := by omega
    have d1 : key ≠ ".." := by rintro rfl; revert hcb; decide
    have d2 : key ≠ "." := by rintro rfl; revert hcb; decide
    simp [is_valid_key, l1, l2, hsw, d1, d2, hcr, hlf, hob, hcb]
  · intro h1 h2 hsw hcr hlf hob hcb hst
    have l1 : ¬((utf8Encode key).length < 1) := by omega
    have l2 : ¬((utf8Encode key).length > 1024) := by omega
    have d1 : key ≠ ".." := by rintro rfl; revert hst; decide
    have d2 : key ≠ "." := by rintro rfl; revert hst; decide
    simp [is_valid_key, l1, l2, hsw, d1, d2, hcr, hlf, hob, hcb, hst]
  · intro h1 h2 hsw hcr hlf hob hcb hst hqm
    have l1 : ¬((utf8Encode key).length < 1) := by omega
    have l2 : ¬((utf8Encode key).length > 1024) := by omega
    have d1 : key ≠ ".." := by rintro rfl; revert hqm; decide
    have d2 : key ≠ "." := by rintro rfl; revert hqm; decide
    simp [is_valid_key, l1, l2, hsw, d1, d2, hcr, hlf, hob, hcb, hst, hqm]
  · intro h1 h2 hsw hcr hlf hob hcb hst hqm hhs
    have l1 : ¬((utf8Encode key).length < 1) := by omega
    have l2 : ¬((utf8Encode key).length > 1024) := by omega
    have d1 : key ≠ ".." := by rintro rfl; revert hhs; decide
    have d2 : key ≠ "." := by rintro rfl; revert hhs; decide
    simp [is_valid_key, l1, l2, hsw, d1, d2, hcr, hlf, hob, hcb, hst, hqm, hhs]

/-- Witness for claim C4: the valid key `"abc"` and the invalid key
`"a#b"` evaluated through the theorem. -/
theorem claim_C4_witness :
    is_valid_key "abc" = .ok () ∧ is_valid_key "a#b" = .error (.Contains "#") :=
  ⟨(claim_C4 "abc").1 (by decide) (by decide) (by decide) (by decide) (by decide)
      (by decide) (by decide) (by decide) (by decide) (by decide) (by decide) (by decide),
    (claim_C4 "a#b").2.2.2.2.2.2.2.2.2.2.2.2 (by decide) (by decide) (by decide) (by decide)
      (by decide) (by decide) (by decide) (by decide) (by decide) (by decide)⟩

/-- The collected keys are the store's key column filtered by the cursor
and prefix predicates. -/
theorem listKeys_eq (s : Store) (cur pfx : Option String) :
    listKeys s cur pfx
      = ((s.map Prod.fst).filter (cursorKeep cur)).filter (pfxKeep pfx) := by
  simp only [listKeys, List.filter_map]
  rfl

/-- Filtering and projecting a sorted store keeps the keys sorted. -/
theorem listKeys_pairwise (s : Store) (cur pfx : Option String)
    (hsorted : s.Pairwise fun a b => strLt a.1 b.1) :
    (listKeys s cur pfx).Pairwise fun a b => strLt a b := by
  unfold listKeys
  exact List.pairwise_map.mpr ((hsorted.filter _).filter _)

/-- Claim C5: for an existing (sorted) store, a cursor that fails base64
decoding yields `BadRequest`; a successful `list` returns a document
whose `data` is exactly the store's key column filtered to keys strictly
greater than the decoded cursor and having the prefix, in ascending
order, truncated to at most `limit` entries; `meta.next_cursor` is
present exactly when truncation removed entries and then base64-encodes
the last emitted key. -/
theorem claim_C5 (stores : Stores) (sk : String) (cursor pfx : Option String)
    (limit : Nat) (s : Store) (hs : btreeFind sk stores = some s)
    (hsorted : s.Pairwise fun a b => strLt a.1 b.1) :
    (∀ c, cursor = some c → base64Decode c = none →
      ObjectStores.list stores sk cursor pfx limit = .value (.error .BadRequest)) ∧
    (∀ cur, decodeCursor cursor = .ok cur →
      ∀ doc, ObjectStores.list stores sk cursor pfx limit = .value (.ok doc) →
        doc.data = (((s.map Prod.fst).filter (cursorKeep cur)).filter (pfxKeep pfx)).take limit ∧
        doc.data.Pairwise (fun a b => strLt a b) ∧
        doc.data.length ≤ limit ∧
        ((listKeys s cur pfx).length ≤ limit → doc.meta.next_cursor = none) ∧
        (limit < (listKeys s cur pfx).length →
          ∃ last, doc.data.get? (doc.data.length - 1) = some last ∧
            doc.meta.next_cursor = some (base64Encode last))) := by
  constructor
  · intro c hc hdec
    subst hc
    simp [ObjectStores.list, hs, decodeCursor, hdec]
  · intro cur hcur doc hdoc
    simp only [ObjectStores.list, hs, hcur] at hdoc
    by_cases htr : limit < (listKeys s cur pfx).length
    · have hlen : (List.take limit (listKeys s cur pfx)).length = limit := by
        rw [List.length_take]; omega
      have hne : (listKeys s cur pfx).length ≠ (List.take limit (listKeys s cur pfx)).length := by
        rw [hlen]; omega
      rw [if_pos hne] at hdoc
      cases hget : (List.take limit (listKeys s cur pfx)).get?
          ((List.take limit (listKeys s cur pfx)).length - 1) with
      | none => rw [hget] at hdoc; exact absurd hdoc (by simp)
      | some last =>
        rw [hget] at hdoc
        simp only [PanicOr.value.injEq, Except.ok.injEq] at hdoc
        subst hdoc
        refine ⟨by rw [← listKeys_eq], ?_, ?_, ?_, ?_⟩
        · exact (listKeys_pairwise s cur pfx hsorted).take
        · simp [List.length_take]
        · intro h; omega
        · intro _; exact ⟨last, hget, rfl⟩
    · rw [if_neg (fun hne => hne (by rw [List.length_take]; omega))] at hdoc
      simp only [PanicOr.value.injEq, Except.ok.injEq] at hdoc
      subst hdoc
      refine ⟨by rw [← listKeys_eq], ?_, ?_, ?_, ?_⟩
      · exact (listKeys_pairwise s cur pfx hsorted).take
      · simp [List.length_take]
      · intro h; rfl
      · intro h; omega

/-- Witness for claim C5: the `{"a1","a2","b1"}` store with prefix `"a"`
and limit 10 (no truncation), plus the undecodable cursor `"!!"`. -/
theorem claim_C5_witness :
    ObjectStores.list
        [("s", [("a1", ⟨[1], [], 0, 0⟩), ("a2", ⟨[2], [], 0, 0⟩), ("b1", ⟨[3], [], 0, 0⟩)])]
        "s" (some "!!") (some "a") 10 = .value (.error .BadRequest) ∧
    (⟨["a1", "a2"], ⟨10, some "a", none⟩⟩ : JsonOutput).data
      = ((([("a1", (⟨[1], [], 0, 0⟩ : ObjectValue)), ("a2", ⟨[2], [], 0, 0⟩),
            ("b1", ⟨[3], [], 0, 0⟩)].map Prod.fst).filter
          (cursorKeep none)).filter (pfxKeep (some "a"))).take 10 := by
  constructor
  · exact (claim_C5 [("s", [("a1", ⟨[1], [], 0, 0⟩), ("a2", ⟨[2], [], 0, 0⟩),
      ("b1", ⟨[3], [], 0, 0⟩)])] "s" (some "!!") (some "a") 10
      [("a1", ⟨[1], [], 0, 0⟩), ("a2", ⟨[2], [], 0, 0⟩), ("b1", ⟨[3], [], 0, 0⟩)]
      (by decide) (by decide)).1 "!!" rfl (by decide)
  · exact ((claim_C5 [("s", [("a1", ⟨[1], [], 0, 0⟩), ("a2", ⟨[2], [], 0, 0⟩),
      ("b1", ⟨[3], [], 0, 0⟩)])] "s" none (some "a") 10
      [("a1", ⟨[1], [], 0, 0⟩), ("a2", ⟨[2], [], 0, 0⟩), ("b1", ⟨[3], [], 0, 0⟩)]
      (by decide) (by decide)).2
      none rfl ⟨["a1", "a2"], ⟨10, some "a", none⟩⟩ (by decide)).1

/-- Claim C8: when at least one key passes the cursor and prefix filters,
`list` with `limit = 0` panics (the `next_cursor` computation indexes the
empty truncated page at `new_len - 1`), while any `limit ≥ 1` returns
normally. -/
theorem claim_C8 (stores : Stores) (sk : String) (cursor pfx : Option String)
    (s : Store) (cur : Option String) (hs : btreeFind sk stores = some s)
    (hcur : decodeCursor cursor = .ok cur)
    (hne : listKeys s cur pfx ≠ []) :
    ObjectStores.list stores sk cursor pfx 0 = .panic ∧
    (∀ limit, 1 ≤ limit →
      ∃ doc, ObjectStores.list stores sk cursor pfx limit = .value (.ok doc)) := by
  constructor
  · have h0 : (listKeys s cur pfx).length ≠ 0 := by
      simpa [List.length_eq_zero] using hne
    simp [ObjectStores.list, hs, hcur, h0]
  · intro limit hl
    by_cases htr : limit < (listKeys s cur pfx).length
    · have hlen : (List.take limit (listKeys s cur pfx)).length = limit := by
        rw [List.length_take]; omega
      have hcond : (listKeys s cur pfx).length
          ≠ (List.take limit (listKeys s cur pfx)).length := by
        rw [hlen]; omega
      cases hget : (List.take limit (listKeys s cur pfx)).get?
          ((List.take limit (listKeys s cur pfx)).length - 1) with
      | none =>
        rw [List.get?_eq_none] at hget
        omega
      | some last =>
        refine ⟨⟨List.take limit (listKeys s cur pfx),
          ⟨limit, pfx, some (base64Encode last)⟩⟩, ?_⟩
        simp only [ObjectStores.list, hs, hcur]
        rw [if_pos hcond, hget]
    · refine ⟨⟨List.take limit (listKeys s cur pfx), ⟨limit, pfx, none⟩⟩, ?_⟩
      simp only [ObjectStores.list, hs, hcur]
      rw [if_neg (fun hc => hc (by rw [List.length_take]; omega))]

/-- Witness for claim C8: the one-key store listed with limit 0 (panic)
and with limit 1 (a normal return). -/
theorem claim_C8_witness :
    ObjectStores.list [("s", [("a1", ⟨[1], [], 0, 0⟩)])] "s" none none 0 = .panic ∧
    ∃ doc, ObjectStores.list [("s", [("a1", ⟨[1], [], 0, 0⟩)])] "s" none none 1
      = .value (.ok doc) := by
  have h := claim_C8 [("s", [("a1", ⟨[1], [], 0, 0⟩)])] "s" none none
    [("a1", ⟨[1], [], 0, 0⟩)] none (by decide) rfl (by decide)
  exact ⟨h.1, h.2 1 (by decide)⟩

/-- Claim C7: at the wiggle hostcall façade, `lookup_wait` downgrades a
`MissingObject` result to success with no body handle written, propagates
every other backing error, and `delete_wait` propagates `NotFound` as a
hard error. -/
theorem claim_C7 (h : Nat) :
    lookup_wait (.error .MissingObject) h = .ok none ∧
    (∀ v, lookup_wait (.ok v) h = .ok (some h)) ∧
    (∀ e, e ≠ ObjectStoreError.MissingObject →
      lookup_wait (.error e) h = .error (.ObjectStoreErr e)) ∧
    delete_wait (.error .NotFound) = .error (.KvStoreErr .NotFound) ∧
    (∀ e, delete_wait (.error e) = .error (.KvStoreErr e)) := by
  refine ⟨rfl, fun v => rfl, ?_, rfl, fun e => rfl⟩
  intro e he
  cases e with
  | MissingObject => exact absurd rfl he
  | PoisonedLock => rfl
  | UnknownObjectStore n => rfl

/-- Witness for claim C7: the error cases evaluated at `PoisonedLock`. -/
theorem claim_C7_witness :
    lookup_wait (.error .MissingObject) 0 = .ok none ∧
    lookup_wait (.error .PoisonedLock) 0 = .error (.ObjectStoreErr .PoisonedLock) ∧
    delete_wait (.error .NotFound) = .error (.KvStoreErr .NotFound) :=
  ⟨(claim_C7 0).1, (claim_C7 0).2.2.1 .PoisonedLock (by decide), (claim_C7 0).2.2.2.1⟩

/-- Claim C9: reading metadata of length `L` into a buffer of declared
capacity below `L` fails with `BufferLen L` and leaves the resource (and
so the metadata) untouched; a read with sufficient capacity moves the
bytes out, so a second read returns `none`; the body accessor is a pure
read that never changes the resource. -/
theorem claim_C9 (r : LookupResult) (md : List Nat) (max_len : Nat) :
    (r.metadata = some md → md.length > max_len →
      r.metadataRead max_len = (.error (.BufferLen md.length), r)) ∧
    (r.metadata = some md → md.length ≤ max_len →
      r.metadataRead max_len = (.ok (some md), { r with metadata := none })) ∧
    (∀ max_len', ({ r with metadata := none } : LookupResult).metadataRead max_len'
      = (.ok none, { r with metadata := none })) ∧
    r.bodyRead = (r.body, r) := by
  refine ⟨?_, ?_, fun m => rfl, rfl⟩
  · intro hmd hlen
    simp [LookupResult.metadataRead, hmd, hlen]
  · intro hmd hlen
    simp [LookupResult.metadataRead, hmd, Nat.not_lt.mpr hlen]

/-- Witness for claim C9: a resource holding 3 metadata bytes read with
capacity 2 (fails, unchanged) and capacity 3 (moves out; second read
empty). -/
theorem claim_C9_witness :
    (⟨5, some [1, 2, 3], 9⟩ : LookupResult).metadataRead 2
      = (.error (.BufferLen 3), ⟨5, some [1, 2, 3], 9⟩) ∧
    (⟨5, some [1, 2, 3], 9⟩ : LookupResult).metadataRead 3
      = (.ok (some [1, 2, 3]), ⟨5, none, 9⟩) ∧
    (⟨5, none, 9⟩ : LookupResult).metadataRead 3 = (.ok none, ⟨5, none, 9⟩) := by
  have h := claim_C9 ⟨5, some [1, 2, 3], 9⟩ [1, 2, 3] 2
  have h3 := claim_C9 ⟨5, some [1, 2, 3], 9⟩ [1, 2, 3] 3
  exact ⟨h.1 rfl (by decide), h3.2.1 rfl (by decide), h3.2.2.1 3⟩

/-- Claim C10: module adaptation rejects a component input with an
explicit error; otherwise imports already bound to
`wasi_snapshot_preview1` are kept as-is, every other import is rebound
under `wasi_snapshot_preview1` with the composite name
`module#name`, and all other sections are copied through unchanged. -/
theorem claim_C10 (payloads : List WasmPayload) :
    (WasmPayload.version .component ∈ payloads →
      mangle_imports payloads
        = .error "Mangling only supports core-wasm modules, not components") ∧
    ((WasmPayload.version .component ∉ payloads) →
      mangle_imports payloads = .ok (payloads.map payloadSections).flatten) ∧
    (∀ i : WasmImport, i.module = "wasi_snapshot_preview1" → mangleImport i = i) ∧
    (∀ i : WasmImport, i.module ≠ "wasi_snapshot_preview1" →
      mangleImport i
        = ⟨"wasi_snapshot_preview1", i.module ++ "#" ++ i.name, i.ty⟩) := by
  refine ⟨?_, ?_, ?_, ?_⟩
  · intro hmem
    induction payloads with
    | nil => simp at hmem
    | cons hd tl ih =>
      rcases List.mem_cons.mp hmem with rfl | hmem'
      · rfl
      · cases hd with
        | version enc =>
          cases enc with
          | module => simpa [mangle_imports] using ih hmem'
          | component => rfl
        | importSection l => simp [mangle_imports, Except.map, ih hmem']
        | rawSection id data => simp [mangle_imports, Except.map, ih hmem']
        | nonSection => simpa [mangle_imports] using ih hmem'
  · intro hmem
    induction payloads with
    | nil => rfl
    | cons hd tl ih =>
      have hmem' : WasmPayload.version .component ∉ tl := fun h =>
        hmem (List.mem_cons_of_mem hd h)
      cases hd with
      | version enc =>
        cases enc with
        | module => simpa [mangle_imports, payloadSections] using ih hmem'
        | component => exact absurd (List.mem_cons_self _ _) hmem
      | importSection l => simp [mangle_imports, payloadSections, Except.map, ih hmem']
      | rawSection id data => simp [mangle_imports, payloadSections, Except.map, ih hmem']
      | nonSection => simpa [mangle_imports, payloadSections] using ih hmem'
  · intro i hi
    simp [mangleImport, hi]
  · intro i hi
    simp [mangleImport, hi]

/-- Witness for claim C10: a component header is rejected; a two-import
module (one preview1, one other) is mangled as described. -/
theorem claim_C10_witness :
    mangle_imports [WasmPayload.version .component]
      = .error "Mangling only supports core-wasm modules, not components" ∧
    mangle_imports [WasmPayload.version .module,
        WasmPayload.importSection [⟨"wasi_snapshot_preview1", "fd_write", 0⟩,
          ⟨"fastly_http_body", "append", 1⟩],
        WasmPayload.rawSection 10 [1, 2, 3]]
      = .ok [OutSection.imports [⟨"wasi_snapshot_preview1", "fd_write", 0⟩,
          ⟨"wasi_snapshot_preview1", "fastly_http_body#append", 1⟩],
          OutSection.raw 10 [1, 2, 3]] := by
  constructor
  · exact (claim_C10 [WasmPayload.version .component]).1 (List.mem_cons_self _ _)
  · have h := (claim_C10 [WasmPayload.version .module,
      WasmPayload.importSection [⟨"wasi_snapshot_preview1", "fd_write", 0⟩,
        ⟨"fastly_http_body", "append", 1⟩],
      WasmPayload.rawSection 10 [1, 2, 3]]).2.1 (by decide)
    rw [h]
    decide

/-- Witness for claim C2: the concrete `"1"`/`"2"` scenario body and the
missing-key equivalence with `Overwrite`, evaluated on the empty store. -/
theorem claim_C2_witness :
    ObjectStores.lookup
      (ObjectStores.insert
        ((ObjectStores.insert [] "s" "a" [49] .Overwrite none none 0).2)
        "s" "a" [50] .Append none none 0).2 "s" "a"
      = .ok ⟨[49, 50], [], 0, 0⟩ ∧
    ObjectStores.insert [] "s" "a" [50] .Append none none 0
      = ObjectStores.insert [] "s" "a" [50] .Overwrite none none 0 :=
  ⟨claim_C2.2.2.2.1, (claim_C2.2.2.1 [] "s" "a" [50] none 0 (by decide)).1⟩
